import Mathlib

/-
Verification of the declarative route-binding engine in bindroutes.go.
The Go file concatenates two revisions of the package; the claims cite the
later one (lines 174-400): UsingRouter / UsingRouters, plug.register,
plug.registerGroup, splitTag, basePath, groupHandlerFuncs, handlerGroups.add.
Go strings are modelled as Lean String (char lists); the inputs exercised by
the package (struct tags and URL path patterns) are ASCII, and the models of
the Go standard-library helpers are faithful on ASCII, percent-free input,
as noted on each definition.
-/

namespace Bindroutes

/-- Go strings.Split(s, sep) for a one-character separator, refactored so the
result is definitionally nonempty: the first piece and the remaining pieces
are built together.  strings.Split always returns at least one piece. -/
def splitCharNE (sep : Char) : List Char → List Char × List (List Char)
  | [] => ([], [])
  | c :: cs =>
    let r := splitCharNE sep cs
    if c = sep then ([], r.1 :: r.2) else (c :: r.1, r.2)

/-- The pieces of Go strings.Split(s, sep), sep a single character. -/
def splitChar (sep : Char) (l : List Char) : List (List Char) :=
  (splitCharNE sep l).1 :: (splitCharNE sep l).2

/-- ASCII case folding of one character; Go strings.EqualFold restricted to
ASCII input (all method tokens in this package are ASCII). -/
def foldChar (c : Char) : Char :=
  if 'A' ≤ c ∧ c ≤ 'Z' then Char.ofNat (c.toNat + 32) else c

/-- Go strings.EqualFold on ASCII strings. -/
def equalFold (a b : String) : Bool :=
  a.data.map foldChar == b.data.map foldChar

/-- isHTTPMethod (bindroutes.go lines 337-345): case-insensitive comparison
against the seven supported verbs. -/
def isHTTPMethod (m : String) : Bool :=
  equalFold m "delete" || equalFold m "get" || equalFold m "head" ||
  equalFold m "options" || equalFold m "patch" || equalFold m "post" ||
  equalFold m "put"

/-- The three distinct panics raised by splitTag (lines 309-335):
invalidTag is the dedicated invalid-handle-definition panic
("Invalid handle definition. Method and route should be defined."),
invalidMethod is "Invalid method '<m>'.", and invalidGroup is
"Invalid group declaration. The correct shape is 'groups=group_a'". -/
inductive TagError
  | invalidTag
  | invalidMethod (m : String)
  | invalidGroup
deriving DecidableEq

/-- Body of splitTag after the comma split: parts[0] and the remaining
comma-separated parts (bindroutes.go lines 315-334). -/
def splitTagParts (p0 : List Char) (rest : List (List Char)) :
    Except TagError (String × String × String) :=
  match splitChar ' ' p0 with
  | e0 :: e1 :: _ =>
    if isHTTPMethod ⟨e0⟩ then
      match rest with
      | [] => .ok (⟨e0⟩, ⟨e1⟩, "")
      | p1 :: _ =>
        match splitChar '=' p1 with
        | g0 :: g1 :: _ =>
          if g0 ≠ "group".data ∨ g1 = [] then .error .invalidGroup
          else .ok (⟨e0⟩, ⟨e1⟩, ⟨g1⟩)
        | _ => .error .invalidGroup
    else .error (.invalidMethod ⟨e0⟩)
  | _ => .error .invalidTag

/-- splitTag (bindroutes.go lines 309-335): split the handle tag on ',',
split parts[0] on ' ' into method and pattern, validate the method
case-insensitively, and parse the optional "group=<name>" suffix.  The Go
len(parts) < 1 check is unreachable (Split returns at least one piece). -/
def splitTag (tag : String) : Except TagError (String × String × String) :=
  match splitChar ',' tag.data with
  | p0 :: rest => splitTagParts p0 rest
  | [] => .error .invalidTag

/-- The backtracking loop of Go path.Clean for a ".." element: starting from
out.w - 1, decrease w while w > dotdot and out[w] is not '/'. -/
def btrackLoop (out : List Char) (dotdot : Nat) : Nat → Nat
  | 0 => 0
  | w + 1 =>
    if w + 1 > dotdot ∧ out.getD (w + 1) ' ' ≠ '/' then btrackLoop out dotdot w
    else w + 1

/-- The main loop of Go path.Clean (lazybuf version): out is the output
buffer, dotdot the limit for ".." backtracking.  fuel bounds the number of
iterations; every iteration consumes at least one input character, so fuel =
input length never runs out. -/
def cleanCore : Nat → List Char → Bool → List Char → Nat → List Char
  | 0, _, _, out, _ => out
  | fuel + 1, p, rooted, out, dotdot =>
    match p with
    | [] => out
    | c :: rest =>
      if c = '/' then
        cleanCore fuel rest rooted out dotdot
      else if c = '.' ∧ (rest = [] ∨ rest.head? = some '/') then
        cleanCore fuel rest rooted out dotdot
      else if c = '.' ∧ rest.head? = some '.' ∧
          (rest.tail = [] ∨ rest.tail.head? = some '/') then
        if dotdot < out.length then
          cleanCore fuel rest.tail rooted
            (out.take (btrackLoop out dotdot (out.length - 1))) dotdot
        else if rooted = false then
          let out2 := (if 0 < out.length then out ++ ['/'] else out) ++ ['.', '.']
          cleanCore fuel rest.tail rooted out2 out2.length
        else
          cleanCore fuel rest.tail rooted out dotdot
      else
        let out2 :=
          if (rooted ∧ out.length ≠ 1) ∨ (¬rooted ∧ out.length ≠ 0)
          then out ++ ['/'] else out
        cleanCore fuel (rest.dropWhile (fun x => x ≠ '/')) rooted
          (out2 ++ c :: rest.takeWhile (fun x => x ≠ '/')) dotdot

/-- Go path.Clean. -/
def pathClean (s : String) : String :=
  if s = "" then "."
  else
    let cs := s.data
    let out :=
      if cs.head? = some '/' then cleanCore cs.length cs.tail true ['/'] 1
      else cleanCore cs.length cs false [] 0
    if out = [] then "." else ⟨out⟩

/-- Go path.Join for two elements: Clean of the "/"-joined nonempty
elements, "" when both are empty. -/
def pathJoin (a b : String) : String :=
  if a ≠ "" then pathClean (a ++ "/" ++ b)
  else if b ≠ "" then pathClean b
  else ""

/-- Go net/url shouldEscape(c, encodePath) on an ASCII byte: unreserved
characters and the path-allowed reserved set pass through, '?' and
everything else is escaped. -/
def shouldEscapePath (c : Char) : Bool :=
  if ('a' ≤ c ∧ c ≤ 'z') ∨ ('A' ≤ c ∧ c ≤ 'Z') ∨ ('0' ≤ c ∧ c ≤ '9') then false
  else if c = '-' ∨ c = '_' ∨ c = '.' ∨ c = '~' then false
  else if c = '$' ∨ c = '&' ∨ c = '+' ∨ c = ',' ∨ c = '/' ∨ c = ':' ∨
      c = ';' ∨ c = '=' ∨ c = '?' ∨ c = '@' then c = '?'
  else true

/-- Upper-case hexadecimal digit, as in Go net/url's upperhex table. -/
def upperHex (n : Nat) : Char :=
  if n < 10 then Char.ofNat (48 + n) else Char.ofNat (55 + n)

/-- Go net/url escape(s, encodePath) on ASCII characters. -/
def escapeChars : List Char → List Char
  | [] => []
  | c :: cs =>
    (if shouldEscapePath c then ['%', upperHex (c.toNat / 16 % 16), upperHex (c.toNat % 16)]
     else [c]) ++ escapeChars cs

/-- String form of escapeChars. -/
def escapePath (s : String) : String := ⟨escapeChars s.data⟩

/-- Value of an ASCII hexadecimal digit. -/
def hexVal (c : Char) : Option Nat :=
  if '0' ≤ c ∧ c ≤ '9' then some (c.toNat - 48)
  else if 'A' ≤ c ∧ c ≤ 'F' then some (c.toNat - 55)
  else if 'a' ≤ c ∧ c ≤ 'f' then some (c.toNat - 87)
  else none

/-- Go net/url unescape(s, encodePath) on ASCII characters: decode each
percent-escape.  A malformed escape makes Go's Parse fail; the package never
produces one on the modelled (percent-free) tag input, so it is kept as-is. -/
def unescapeChars : List Char → List Char
  | '%' :: a :: b :: rest =>
    match hexVal a, hexVal b with
    | some x, some y => Char.ofNat (16 * x + y) :: unescapeChars rest
    | _, _ => '%' :: unescapeChars (a :: b :: rest)
  | c :: rest => c :: unescapeChars rest
  | [] => []

/-- Whether the string has a leading '/', Go strings.HasPrefix(s, "/"). -/
def startsWithSlash (s : String) : Bool := s.data.head? == some '/'

/-- Whether the string has a trailing '/', Go strings.HasSuffix(s, "/"). -/
def endsWithSlash (s : String) : Bool := s.data.getLast? == some '/'

/-- Go net/url JoinPath(base, elem), modelled for CTL-free, percent-free
base and elem strings (the shape produced by this package's tags).  For such
a base, Parse succeeds, EscapedPath() of the parsed base is escapePath base,
and String() of the joined URL is the re-escape of the unescaped cleaned
path.  path.Join removes trailing slashes; JoinPath restores one when the
last element ended with '/'. -/
def urlJoinPath (base elem : String) : String :=
  let e0 := escapePath base
  let joined :=
    if startsWithSlash e0 then pathJoin e0 elem
    else ⟨(pathJoin ("/" ++ e0) elem).data.tail⟩
  let p := if endsWithSlash elem ∧ ¬ endsWithSlash joined then joined ++ "/"
           else joined
  escapePath ⟨unescapeChars p.data⟩

/-- One struct field of a controller as reflect.VisibleFields exposes it:
its name, whether its declared type is the bindroutes.BasePath marker type,
the value of its handle tag ("" when absent, as Go Tag.Get reports), the
value of its using-router tag (read by the repository's tests and README,
never read by this code), and the field's value as an opaque handler id. -/
structure Field where
  name : String
  isMarkerType : Bool
  handleTag : String
  usingRouterTag : String
  handler : Nat
deriving DecidableEq

/-- A controller is an ordered list of visible fields. -/
abbrev Controller := List Field

/-- isGroupAnnotation (bindroutes.go lines 296-298): the field is named
"BasePath" and its declared type is the BasePath marker type. -/
def isGroupAnnotation (f : Field) : Bool :=
  f.name == "BasePath" && f.isMarkerType

/-- basePath (bindroutes.go lines 300-307): the handle tag of the first
marker field, "" when there is none. -/
def basePath : List Field → String
  | [] => ""
  | f :: fs => if isGroupAnnotation f then f.handleTag else basePath fs

/-- The panics the binding pass can raise: a splitTag panic, or the
reflect panic from calling Value.Elem on a non-pointer argument. -/
inductive Panic
  | tag (e : TagError)
  | elemOnNonPointer
deriving DecidableEq

/-- A controller argument as passed to the public operations: a pointer to
a struct, or a struct passed by value. -/
inductive GoValue
  | ptr (c : Controller)
  | structVal (c : Controller)

/-- reflect.ValueOf(c).Elem() (lines 235 and 350): dereferences a pointer
argument; on a struct passed by value it panics before any field is read. -/
def valueElem : GoValue → Except Panic Controller
  | .ptr c => .ok c
  | .structVal _ => .error .elemOnNonPointer

/-- The keys of the plug map built by routerPlug (lines 389-399). -/
def plugKeys : List String :=
  ["DELETE", "GET", "HEAD", "OPTIONS", "PATCH", "POST", "PUT"]

/-- One recorded registration call: which verb method of the router was
invoked, with which pattern and handler reference. -/
structure RegCall where
  verb : String
  path : String
  handler : Nat
deriving DecidableEq

/-- The inner loop of plug.register (lines 269-278): iterate the plug map
in the given key order and invoke the entry whose key equals the parsed
method.  The iteration order of a Go map is arbitrary; it is a parameter. -/
def fieldCalls (order : List String) (m pathv : String) (h : Nat) :
    List RegCall :=
  order.filterMap fun k => if m = k then some ⟨k, pathv, h⟩ else none

/-- The field loop of plug.register (lines 258-279) with the base path
already resolved: skip marker fields and fields without a handle tag, panic
on a malformed tag (keeping the calls already made), and otherwise register
path.Join(bpath, pattern) under the parsed method. -/
def registerFields (order : List String) (bpath : String) :
    List Field → List RegCall × Option Panic
  | [] => ([], none)
  | f :: fs =>
    if isGroupAnnotation f then registerFields order bpath fs
    else if f.handleTag = "" then registerFields order bpath fs
    else
      match splitTag f.handleTag with
      | .error e => ([], some (.tag e))
      | .ok (m, pat, _) =>
        let done := registerFields order bpath fs
        (fieldCalls order m (pathJoin bpath pat) f.handler ++ done.1, done.2)

/-- plug.register (bindroutes.go lines 254-280). -/
def registerC (order : List String) (c : Controller) :
    List RegCall × Option Panic :=
  registerFields order (basePath c) c

/-- UsingRouter (bindroutes.go lines 232-238): Elem each controller
argument and register it; a panic stops the pass, keeping earlier calls. -/
def usingRouter (order : List String) : List GoValue → List RegCall × Option Panic
  | [] => ([], none)
  | c :: cs =>
    match valueElem c with
    | .error p => ([], some p)
    | .ok ctrl =>
      match registerC order ctrl with
      | (calls, some p) => (calls, some p)
      | (calls, none) =>
        let done := usingRouter order cs
        (calls ++ done.1, done.2)

/-- The handler record stored by groupHandlerFuncs (lines 208-212). -/
structure Handler where
  method : String
  path : String
  handlerFunc : Nat
deriving DecidableEq

/-- handlerGroups (line 214), as an association list from group name to the
handlers appended under that name. -/
abbrev Groups := List (String × List Handler)

/-- handlerGroups.add (bindroutes.go lines 376-387): append the handler to
the list stored under the key, creating the list when absent. -/
def groupsAdd : Groups → String → Handler → Groups
  | [], key, h => [(key, [h])]
  | (k, hs) :: g, key, h =>
    if k = key then (k, hs ++ [h]) :: g else (k, hs) :: groupsAdd g key h

/-- Lookup gs[name] in the grouped handlers. -/
def lookupGroup : Groups → String → Option (List Handler)
  | [], _ => none
  | (k, hs) :: g, n => if k = n then some hs else lookupGroup g n

/-- The field loop of groupHandlerFuncs (lines 353-371): skip marker and
untagged fields, panic on a malformed tag, and add each binding under the
group name parsed from the tag with route url.JoinPath(bpath, pattern).
The url.JoinPath error branch is unreachable on the modelled input class. -/
def groupFields (bpath : String) (g : Groups) :
    List Field → Groups × Option Panic
  | [] => (g, none)
  | f :: fs =>
    if isGroupAnnotation f then groupFields bpath g fs
    else if f.handleTag = "" then groupFields bpath g fs
    else
      match splitTag f.handleTag with
      | .error e => (g, some (.tag e))
      | .ok (m, pat, gname) =>
        groupFields bpath (groupsAdd g gname ⟨m, urlJoinPath bpath pat, f.handler⟩) fs

/-- Controller loop of groupHandlerFuncs (lines 347-374). -/
def groupHandlerFuncsAux (g : Groups) : List GoValue → Groups × Option Panic
  | [] => (g, none)
  | c :: cs =>
    match valueElem c with
    | .error p => (g, some p)
    | .ok ctrl =>
      match groupFields (basePath ctrl) g ctrl with
      | (g2, some p) => (g2, some p)
      | (g2, none) => groupHandlerFuncsAux g2 cs

/-- groupHandlerFuncs (bindroutes.go lines 347-374). -/
def groupHandlerFuncs (cs : List GoValue) : Groups × Option Panic :=
  groupHandlerFuncsAux [] cs

/-- plug.registerGroup (bindroutes.go lines 282-294): for each stored
handler, look its method up in the plug map and invoke that entry; methods
absent from the map are skipped silently. -/
def registerGroup (hs : List Handler) : List RegCall :=
  hs.filterMap fun h =>
    if plugKeys.contains h.method then some ⟨h.method, h.path, h.handlerFunc⟩
    else none

/-- UsingRouters (bindroutes.go lines 240-252): group all bindings first
(a panic there reaches the caller before any router is touched), then for
each supplied router name replay its group when one exists.  The debugging
json/Printf at lines 250-251 only writes to stdout and is not modelled. -/
def usingRouters (rsNames : List String) (cs : List GoValue) :
    List (String × List RegCall) × Option Panic :=
  let gr := groupHandlerFuncs cs
  match gr.2 with
  | some p => ([], some p)
  | none =>
    (rsNames.map fun name =>
      (name,
        match lookupGroup gr.1 name with
        | some g => registerGroup g
        | none => []),
     none)

/-- Splitting on a separator that does not occur returns the whole input as
the single piece. -/
lemma splitCharNE_of_not_mem {sep : Char} {l : List Char} (h : sep ∉ l) :
    splitCharNE sep l = (l, []) := by
  induction l with
  | nil => rfl
  | cons c cs ih =>
    simp only [List.mem_cons, not_or] at h
    have hc : ¬ c = sep := fun hh => h.1 hh.symm
    simp [splitCharNE, ih h.2, hc]

/-- If the split produced a single piece, the separator does not occur. -/
lemma splitCharNE_snd_nil {sep : Char} {l : List Char}
    (h : (splitCharNE sep l).2 = []) : sep ∉ l := by
  induction l with
  | nil => simp
  | cons c cs ih =>
    by_cases hc : c = sep
    · exfalso
      simp [splitCharNE, hc] at h
    · simp only [splitCharNE, if_neg hc] at h
      simp only [List.mem_cons, not_or]
      exact ⟨fun hh => hc hh.symm, ih h⟩

/-- Every character of the first split piece occurs in the input. -/
lemma mem_of_mem_splitCharNE_fst {sep x : Char} {l : List Char}
    (h : x ∈ (splitCharNE sep l).1) : x ∈ l := by
  induction l with
  | nil => simp [splitCharNE] at h
  | cons c cs ih =>
    by_cases hc : c = sep
    · simp [splitCharNE, hc] at h
    · simp only [splitCharNE, if_neg hc] at h
      rcases List.mem_cons.mp h with h1 | h2
      · exact h1 ▸ List.mem_cons_self _ _
      · exact List.mem_cons_of_mem _ (ih h2)

/-- With no comma-separated suffix, a successful parse carries the empty
group name. -/
lemma splitTagParts_nil_group {p0 : List Char} {m p g : String}
    (h : splitTagParts p0 [] = .ok (m, p, g)) : g = "" := by
  rcases hsp : splitChar ' ' p0 with _ | ⟨e0, _ | ⟨e1, t⟩⟩ <;>
    simp only [splitTagParts, hsp] at h
  · simp at h
  · simp at h
  · by_cases hm : isHTTPMethod ⟨e0⟩ = true
    · rw [if_pos hm] at h
      simp only [Except.ok.injEq, Prod.mk.injEq] at h
      exact h.2.2.symm
    · rw [if_neg hm] at h
      simp at h

/-- A comma-free tag that parses successfully carries the empty group name:
splitTag only produces a nonempty group from a "group=" suffix after a
comma. -/
lemma splitTag_no_comma_group {tag m p g : String}
    (hc : ',' ∉ tag.data) (h : splitTag tag = .ok (m, p, g)) : g = "" := by
  have he : splitCharNE ',' tag.data = (tag.data, []) := splitCharNE_of_not_mem hc
  have h0 : splitTag tag = splitTagParts tag.data [] := by
    simp [splitTag, splitChar, he]
  rw [h0] at h
  exact splitTagParts_nil_group h

/-- groupsAdd preserves the invariant that every group key is the empty
string when the added key is empty. -/
lemma groupsAdd_keys {g : Groups} {key : String} {h : Handler}
    (hg : ∀ e ∈ g, e.1 = "") (hk : key = "") :
    ∀ e ∈ groupsAdd g key h, e.1 = "" := by
  induction g with
  | nil =>
    intro e he
    simp only [groupsAdd, List.mem_singleton] at he
    rw [he, hk]
  | cons q g ih =>
    intro e he
    by_cases hq : q.1 = key
    · simp only [groupsAdd] at he
      rw [if_pos hq] at he
      rcases List.mem_cons.mp he with h1 | h2
      · rw [h1]
        exact hq.trans hk
      · exact hg e (List.mem_cons_of_mem _ h2)
    · simp only [groupsAdd] at he
      rw [if_neg hq] at he
      rcases List.mem_cons.mp he with h1 | h2
      · rw [h1]
        exact hg q (List.mem_cons_self _ _)
      · exact ih (fun x hx => hg x (List.mem_cons_of_mem _ hx)) e h2

/-- Field loop of groupHandlerFuncs on comma-free tags: every group key
stays the empty string. -/
lemma groupFields_keys {bpath : String} {fs : List Field} {g : Groups}
    (hg : ∀ e ∈ g, e.1 = "")
    (hf : ∀ f ∈ fs, ',' ∉ f.handleTag.data) :
    ∀ e ∈ (groupFields bpath g fs).1, e.1 = "" := by
  induction fs generalizing g with
  | nil => simpa [groupFields] using hg
  | cons f fs ih =>
    have hcf : ',' ∉ f.handleTag.data := hf f (List.mem_cons_self _ _)
    have hrest : ∀ x ∈ fs, ',' ∉ x.handleTag.data :=
      fun x hx => hf x (List.mem_cons_of_mem _ hx)
    by_cases h1 : isGroupAnnotation f = true
    · simpa [groupFields, h1] using ih hg hrest
    · by_cases h2 : f.handleTag = ""
      · simpa [groupFields, h1, h2] using ih hg hrest
      · cases hsp : splitTag f.handleTag with
        | error e => simpa [groupFields, h1, h2, hsp] using hg
        | ok trip =>
          obtain ⟨m, p, gname⟩ := trip
          have hgn : gname = "" := splitTag_no_comma_group hcf hsp
          have hg2 : ∀ e ∈ groupsAdd g gname
              ⟨m, urlJoinPath bpath p, f.handler⟩, e.1 = "" :=
            groupsAdd_keys hg hgn
          simpa [groupFields, h1, h2, hsp] using ih hg2 hrest

/-- Controller loop of groupHandlerFuncs on pointer arguments with
comma-free tags: every group key stays the empty string. -/
lemma groupHandlerFuncsAux_keys {cs : List Controller} {g : Groups}
    (hg : ∀ e ∈ g, e.1 = "")
    (hf : ∀ c ∈ cs, ∀ f ∈ c, ',' ∉ f.handleTag.data) :
    ∀ e ∈ (groupHandlerFuncsAux g (cs.map GoValue.ptr)).1, e.1 = "" := by
  induction cs generalizing g with
  | nil => simpa [groupHandlerFuncsAux] using hg
  | cons c cs ih =>
    have h1 : ∀ f ∈ c, ',' ∉ f.handleTag.data := hf c (List.mem_cons_self _ _)
    have h2 : ∀ x ∈ cs, ∀ f ∈ x, ',' ∉ f.handleTag.data :=
      fun x hx => hf x (List.mem_cons_of_mem _ hx)
    have hk2 : ∀ e ∈ (groupFields (basePath c) g c).1, e.1 = "" :=
      groupFields_keys hg h1
    cases hgf : groupFields (basePath c) g c with
    | mk g2 op =>
      rw [hgf] at hk2
      cases op with
      | none =>
        simpa [groupHandlerFuncsAux, valueElem, hgf] using ih hk2 h2
      | some p =>
        simpa [groupHandlerFuncsAux, valueElem, hgf] using hk2

/-- One step of the inner plug loop. -/
lemma fieldCalls_cons (m pathv : String) (h : Nat) (a : String)
    (t : List String) :
    fieldCalls (a :: t) m pathv h =
      (if m = a then [⟨a, pathv, h⟩] else []) ++ fieldCalls t m pathv h := by
  by_cases hm : m = a
  · simp [fieldCalls, List.filterMap_cons, hm]
  · simp [fieldCalls, List.filterMap_cons, hm]

/-- A plug-map iteration order that does not contain the parsed method
produces no call for the field. -/
lemma fieldCalls_not_mem {m pathv : String} {h : Nat} {l : List String}
    (hm : m ∉ l) : fieldCalls l m pathv h = [] := by
  induction l with
  | nil => rfl
  | cons a t ih =>
    have ha : ¬ m = a := fun hh => hm (hh ▸ List.mem_cons_self _ _)
    have ht : m ∉ t := fun hx => hm (List.mem_cons_of_mem _ hx)
    rw [fieldCalls_cons, if_neg ha, ih ht]
    rfl

/-- Over a duplicate-free iteration order, the inner plug loop makes
exactly one call when the parsed method is a key and none otherwise. -/
lemma fieldCalls_nodup_eval (m pathv : String) (h : Nat) (l : List String)
    (hl : l.Nodup) :
    fieldCalls l m pathv h = if m ∈ l then [⟨m, pathv, h⟩] else [] := by
  induction l with
  | nil => simp [fieldCalls]
  | cons a t ih =>
    rcases List.nodup_cons.mp hl with ⟨ha, ht⟩
    rw [fieldCalls_cons]
    by_cases hm : m = a
    · subst hm
      rw [if_pos rfl, if_pos (List.mem_cons_self _ _), fieldCalls_not_mem ha]
      rfl
    · rw [if_neg hm, ih ht, List.nil_append]
      simp [List.mem_cons, hm]

/-- The calls of one field are the same for any two iteration orders that
are permutations of each other (the second duplicate-free). -/
lemma fieldCalls_perm {o1 o2 : List String} (m pathv : String) (h : Nat)
    (hp : o1.Perm o2) (hn : o2.Nodup) :
    fieldCalls o1 m pathv h = fieldCalls o2 m pathv h := by
  have hn1 : o1.Nodup := hp.nodup_iff.mpr hn
  rw [fieldCalls_nodup_eval m pathv h o1 hn1,
    fieldCalls_nodup_eval m pathv h o2 hn]
  by_cases hm : m ∈ o2
  · rw [if_pos (hp.mem_iff.mpr hm), if_pos hm]
  · rw [if_neg (fun hx => hm (hp.mem_iff.mp hx)), if_neg hm]

/-- plug.register is insensitive to the plug-map iteration order. -/
lemma registerFields_perm {o1 o2 : List String} (bpath : String)
    (fs : List Field) (hp : o1.Perm o2) (hn : o2.Nodup) :
    registerFields o1 bpath fs = registerFields o2 bpath fs := by
  induction fs with
  | nil => rfl
  | cons f fs ih =>
    by_cases h1 : isGroupAnnotation f = true
    · simpa [registerFields, h1] using ih
    · by_cases h2 : f.handleTag = ""
      · simpa [registerFields, h1, h2] using ih
      · cases hsp : splitTag f.handleTag with
        | error e => simp [registerFields, h1, h2, hsp]
        | ok trip =>
          obtain ⟨m, pat, g⟩ := trip
          simp [registerFields, h1, h2, hsp, ih,
            fieldCalls_perm m (pathJoin bpath pat) f.handler hp hn]

/-- The controller of the repository's TestGroupHandlerFuncs/TestUsingRouters:
base path "/users" and four handler fields whose router names are declared in
the separate using-router attribute. -/
def groupTagController : Controller :=
  [⟨"BasePath", true, "/users", "", 0⟩,
   ⟨"Post", false, "POST /", "router_a", 1⟩,
   ⟨"Get", false, "GET /{id}", "router_b", 2⟩,
   ⟨"Put", false, "PUT /{id}", "router_a", 3⟩,
   ⟨"Delete", false, "DELETE /{id}", "router_c", 4⟩]

/-- C1: the multi-router binding pass does NOT group bindings under the value
of the separate using-router attribute.  On the controller of the
repository's own TestGroupHandlerFuncs (router names router_a/b/a/c carried
in the using-router attribute next to valid handle tags), groupHandlerFuncs
keys all four bindings under "" — splitTag reads only the handle tag — so a
lookup of "router_a" finds nothing and UsingRouters registers nothing on any
of the three supplied routers. -/
theorem c1_using_router_attribute_ignored :
    (groupHandlerFuncs [GoValue.ptr groupTagController]).1 =
      [("", [⟨"POST", "/users/", 1⟩, ⟨"GET", "/users/%7Bid%7D", 2⟩,
             ⟨"PUT", "/users/%7Bid%7D", 3⟩, ⟨"DELETE", "/users/%7Bid%7D", 4⟩])] ∧
    lookupGroup (groupHandlerFuncs [GoValue.ptr groupTagController]).1
      "router_a" = none ∧
    usingRouters ["router_a", "router_b", "router_c"]
        [GoValue.ptr groupTagController] =
      ([("router_a", []), ("router_b", []), ("router_c", [])], none) := by
  refine ⟨rfl, rfl, rfl⟩

/-- C2: a lower-case verb such as "get /x" is accepted by splitTag (the
method check is case-insensitive) but then matched exactly against the
upper-case plug keys, so neither the single-router pass nor registerGroup
invokes any verb method for it — the binding is dropped without error —
while the upper-case spelling of the same tag registers exactly once. -/
theorem c2_lowercase_method_dropped :
    splitTag "get /x" = .ok ("get", "/x", "") ∧
    usingRouter plugKeys [GoValue.ptr [⟨"Get", false, "get /x", "", 7⟩]] =
      ([], none) ∧
    usingRouters [""] [GoValue.ptr [⟨"Get", false, "get /x", "", 7⟩]] =
      ([("", [])], none) ∧
    usingRouter plugKeys [GoValue.ptr [⟨"Get", false, "GET /x", "", 7⟩]] =
      ([⟨"GET", "/x", 7⟩], none) := by
  refine ⟨rfl, rfl, rfl, rfl⟩

/-- C3: the three path-composition examples hold in the single-router pass
(path.Join) but all three fail in the multi-router pass, whose
url.JoinPath keeps the trailing slash of "/" ("/users/"), percent-encodes
the brace segment, and drops the leading slash for an empty base ("x"). -/
theorem c3_compose_divergence_multi_router :
    usingRouter plugKeys [GoValue.ptr
        [⟨"BasePath", true, "/users", "", 0⟩,
         ⟨"Post", false, "POST /", "", 1⟩,
         ⟨"Get", false, "GET /{id}", "", 2⟩]] =
      ([⟨"POST", "/users", 1⟩, ⟨"GET", "/users/{id}", 2⟩], none) ∧
    usingRouters [""] [GoValue.ptr
        [⟨"BasePath", true, "/users", "", 0⟩,
         ⟨"Post", false, "POST /", "", 1⟩,
         ⟨"Get", false, "GET /{id}", "", 2⟩]] =
      ([("", [⟨"POST", "/users/", 1⟩, ⟨"GET", "/users/%7Bid%7D", 2⟩])], none) ∧
    pathJoin "" "/x" = "/x" ∧
    urlJoinPath "" "/x" = "x" := by
  refine ⟨rfl, rfl, rfl, rfl⟩

/-- C4: path templates are not percent-encoded in the single-router pass,
but the multi-router pass hands the router "/api/%7Bid%7D" instead of the
verbatim "/api/{id}" for the same field. -/
theorem c4_percent_encoding_multi_router :
    usingRouter plugKeys [GoValue.ptr
        [⟨"BasePath", true, "/api", "", 0⟩,
         ⟨"Get", false, "GET /{id}", "", 5⟩]] =
      ([⟨"GET", "/api/{id}", 5⟩], none) ∧
    usingRouters [""] [GoValue.ptr
        [⟨"BasePath", true, "/api", "", 0⟩,
         ⟨"Get", false, "GET /{id}", "", 5⟩]] =
      ([("", [⟨"GET", "/api/%7Bid%7D", 5⟩])], none) ∧
    urlJoinPath "/api" "/{id}" ≠ "/api/{id}" := by
  refine ⟨rfl, rfl, by decide⟩

/-- C5 counterexample: a handler field whose metadata carries no router-name
label is grouped under the empty name "", not under "root": the only group
produced is keyed "" and a lookup of "root" finds nothing. -/
theorem c5_root_default_cex :
    lookupGroup (groupHandlerFuncs
      [GoValue.ptr [⟨"Get", false, "GET /x", "", 3⟩]]).1 "root" = none ∧
    (groupHandlerFuncs [GoValue.ptr [⟨"Get", false, "GET /x", "", 3⟩]]).1 =
      [("", [⟨"GET", "x", 3⟩])] := by
  refine ⟨rfl, rfl⟩

/-- C5 (amended): when no handler field of any controller carries a
router-name label (no comma suffix in any handle tag), the multi-router
binding pass groups every binding under the empty router name "". -/
theorem c5_default_group_is_empty_string (cs : List Controller)
    (h : ∀ c ∈ cs, ∀ f ∈ c, ',' ∉ f.handleTag.data) :
    ((groupHandlerFuncs (cs.map GoValue.ptr)).1.all
      fun e => e.1 == "") = true := by
  rw [List.all_eq_true]
  intro e he
  have hk := groupHandlerFuncsAux_keys (g := []) (by simp) h e he
  simpa using hk

/-- C5 witness: the amended statement evaluated on a concrete controller
with an unlabelled handler field. -/
theorem c5_default_group_is_empty_string_witness :
    ((groupHandlerFuncs
        ([[⟨"Get", false, "GET /x", "", 3⟩]].map GoValue.ptr)).1.all
      fun e => e.1 == "") = true :=
  c5_default_group_is_empty_string [[⟨"Get", false, "GET /x", "", 3⟩]]
    (by decide)

/-- C6: a handle tag with fewer than two space-separated pieces (the
count strings.Split reports) fails with the dedicated
invalid-handle-definition panic, never with the invalid-method or
invalid-group panic: such a tag contains no space, hence neither does its
first comma piece, so the elems check fires first. -/
theorem c6_short_tag_invalid_tag (tag : String)
    (h : (splitChar ' ' tag.data).length < 2) :
    splitTag tag = .error .invalidTag := by
  have h1 : ((splitCharNE ' ' tag.data).2).length + 1 < 2 := by
    simpa [splitChar] using h
  have h2 : (splitCharNE ' ' tag.data).2 = [] :=
    List.length_eq_zero.mp (by omega)
  have hnosp : ' ' ∉ tag.data := splitCharNE_snd_nil h2
  have hp0 : ' ' ∉ (splitCharNE ',' tag.data).1 :=
    fun hm => hnosp (mem_of_mem_splitCharNE_fst hm)
  have hsingle : splitChar ' ' (splitCharNE ',' tag.data).1 =
      [(splitCharNE ',' tag.data).1] := by
    simp [splitChar, splitCharNE_of_not_mem hp0]
  have h0 : splitTag tag =
      splitTagParts (splitCharNE ',' tag.data).1 (splitCharNE ',' tag.data).2 :=
    rfl
  rw [h0]
  simp only [splitTagParts, hsingle]

/-- C6 witness: the one-piece tag "GET" from the spec's example. -/
theorem c6_short_tag_invalid_tag_witness :
    splitTag "GET" = .error .invalidTag :=
  c6_short_tag_invalid_tag "GET" (by decide)

/-- C7: when grouping succeeds, UsingRouters never fails, the routers it
touches are exactly the supplied names in order, and a supplied router whose
name has no binding group records no call; binding groups whose names are
not supplied are never replayed (the result only contains supplied names). -/
theorem c7_unknown_router_names_skipped (rsNames : List String)
    (cs : List GoValue) (gs : Groups)
    (h : groupHandlerFuncs cs = (gs, none)) :
    (usingRouters rsNames cs).2 = none ∧
    (usingRouters rsNames cs).1.map Prod.fst = rsNames ∧
    ∀ n ∈ rsNames, lookupGroup gs n = none →
      (n, ([] : List RegCall)) ∈ (usingRouters rsNames cs).1 := by
  have hu : usingRouters rsNames cs =
      (rsNames.map fun name =>
        (name, match lookupGroup gs name with
          | some g => registerGroup g
          | none => []), none) := by
    simp [usingRouters, h]
  refine ⟨by rw [hu], ?_, ?_⟩
  · rw [hu]
    simp only [List.map_map]
    clear hu h
    induction rsNames with
    | nil => rfl
    | cons a t iht =>
      rw [List.map_cons, iht]
      rfl
  · intro n hn hl
    rw [hu]
    refine List.mem_map.mpr ⟨n, hn, ?_⟩
    simp [hl]

/-- C7 witness: one router named "a", one binding declared for group "b":
no error, no call on "a", and "a" is the only router in the result. -/
theorem c7_unknown_router_names_skipped_witness :
    (usingRouters ["a"]
      [GoValue.ptr [⟨"Get", false, "GET /x,group=b", "", 9⟩]]).2 = none ∧
    ("a", ([] : List RegCall)) ∈
      (usingRouters ["a"]
        [GoValue.ptr [⟨"Get", false, "GET /x,group=b", "", 9⟩]]).1 := by
  have h := c7_unknown_router_names_skipped ["a"]
    [GoValue.ptr [⟨"Get", false, "GET /x,group=b", "", 9⟩]]
    [("b", [⟨"GET", "x", 9⟩])] rfl
  exact ⟨h.1, h.2.2 "a" (by decide) rfl⟩

/-- C8 counterexample: with a valid field before the field tagged
"NINJA /", the single-router pass has already made the Get registration
call when the invalid-method panic fires, so the pass does not fail before
any registration call is made. -/
theorem c8_calls_before_failure_cex :
    usingRouter plugKeys
        [GoValue.ptr [⟨"Get", false, "GET /a", "", 1⟩,
                      ⟨"Post", false, "NINJA /", "", 2⟩]] =
      ([⟨"GET", "/a", 1⟩], some (Panic.tag (.invalidMethod "NINJA"))) ∧
    ([(⟨"GET", "/a", 1⟩ : RegCall)] : List RegCall) ≠ [] := by
  refine ⟨rfl, by decide⟩

/-- C8 (amended): the multi-router pass groups first, so any tag panic
reaches the caller before a single registration call; the single-router
pass stops at the first field whose tag fails to parse — no call is made
for that field or any later one — but the calls of the error-free fields
before it have already been made. -/
theorem c8_fail_before_registration_amended :
    (∀ (order : List String) (bpath : String) (pre : List Field) (f : Field)
        (fs : List Field) (e : TagError),
      isGroupAnnotation f = false → f.handleTag ≠ "" →
      splitTag f.handleTag = .error e →
      (registerFields order bpath pre).2 = none →
      registerFields order bpath (pre ++ f :: fs) =
        ((registerFields order bpath pre).1, some (Panic.tag e))) ∧
    (∀ (rsNames : List String) (cs : List GoValue) (g : Groups) (e : Panic),
      groupHandlerFuncs cs = (g, some e) →
      usingRouters rsNames cs = ([], some e)) := by
  constructor
  · intro order bpath pre f fs e h1 h2 h3
    induction pre with
    | nil =>
      intro _
      simp [registerFields, h1, h2, h3]
    | cons p ps ih =>
      intro h4
      by_cases hp1 : isGroupAnnotation p = true
      · have h4x : (registerFields order bpath ps).2 = none := by
          simpa [registerFields, hp1] using h4
        simpa [registerFields, hp1] using ih h4x
      · by_cases hp2 : p.handleTag = ""
        · have h4x : (registerFields order bpath ps).2 = none := by
            simpa [registerFields, hp1, hp2] using h4
          simpa [registerFields, hp1, hp2] using ih h4x
        · cases hsp : splitTag p.handleTag with
          | error e2 =>
            exfalso
            simp [registerFields, hp1, hp2, hsp] at h4
          | ok trip =>
            obtain ⟨m, pat, g⟩ := trip
            have h4x : (registerFields order bpath ps).2 = none := by
              simpa [registerFields, hp1, hp2, hsp] using h4
            simp [registerFields, hp1, hp2, hsp, ih h4x]
  · intro rsNames cs g e h
    simp [usingRouters, h]

/-- C8 witness: the amended behavior at the counterexample input — the
single-router field loop emits exactly the prefix call then the panic, and
UsingRouters makes no call at all on the same controller. -/
theorem c8_fail_before_registration_amended_witness :
    registerFields plugKeys ""
        ([⟨"Get", false, "GET /a", "", 1⟩] ++
          ⟨"Post", false, "NINJA /", "", 2⟩ :: []) =
      ((registerFields plugKeys "" [⟨"Get", false, "GET /a", "", 1⟩]).1,
        some (Panic.tag (.invalidMethod "NINJA"))) ∧
    usingRouters ["a"]
        [GoValue.ptr [⟨"Get", false, "GET /a", "", 1⟩,
                      ⟨"Post", false, "NINJA /", "", 2⟩]] =
      ([], some (Panic.tag (.invalidMethod "NINJA"))) :=
  ⟨c8_fail_before_registration_amended.1 plugKeys ""
      [⟨"Get", false, "GET /a", "", 1⟩] ⟨"Post", false, "NINJA /", "", 2⟩ []
      (.invalidMethod "NINJA") rfl (by decide) rfl rfl,
   c8_fail_before_registration_amended.2 ["a"]
      [GoValue.ptr [⟨"Get", false, "GET /a", "", 1⟩,
                    ⟨"Post", false, "NINJA /", "", 2⟩]]
      [("", [⟨"GET", "a", 1⟩])] (Panic.tag (.invalidMethod "NINJA")) rfl⟩

/-- C9: the binding pass is deterministic: the only nondeterminism in
UsingRouter is the Go map iteration order of the plug, and for any two
iteration orders (permutations of the seven keys) the recorded call
sequence is identical, so two runs on the same controllers with fresh
routers record the same sequence. -/
theorem c9_binding_pass_deterministic (o1 o2 : List String)
    (cs : List GoValue) (h1 : o1.Perm plugKeys) (h2 : o2.Perm plugKeys) :
    usingRouter o1 cs = usingRouter o2 cs := by
  have hp : o1.Perm o2 := h1.trans h2.symm
  have hn : o2.Nodup := h2.nodup_iff.mpr (by decide)
  induction cs with
  | nil => rfl
  | cons c cs ih =>
    cases c with
    | structVal c => rfl
    | ptr c =>
      have hr : registerC o1 c = registerC o2 c :=
        registerFields_perm (basePath c) c hp hn
      cases hreg : registerC o2 c with
      | mk calls op =>
        cases op with
        | some p => simp [usingRouter, valueElem, hr, hreg]
        | none => simp [usingRouter, valueElem, hr, hreg, ih]

/-- C9 witness: two different plug iteration orders on a concrete
controller produce the same recorded calls. -/
theorem c9_binding_pass_deterministic_witness :
    usingRouter ["GET", "DELETE", "HEAD", "OPTIONS", "PATCH", "POST", "PUT"]
        [GoValue.ptr [⟨"Post", false, "POST /x", "", 2⟩]] =
      usingRouter plugKeys [GoValue.ptr [⟨"Post", false, "POST /x", "", 2⟩]] :=
  c9_binding_pass_deterministic _ _ _
    (List.Perm.swap "DELETE" "GET" ["HEAD", "OPTIONS", "PATCH", "POST", "PUT"])
    (List.Perm.refl _)

/-- C10: a controller passed by value instead of by pointer makes both
public binding operations panic at reflect.Value.Elem, before any field is
read: no registration call happens and the panic is the Elem panic, not a
tag panic, whatever the controller's tags are. -/
theorem c10_non_pointer_panics (order rsNames : List String) (c : Controller) :
    usingRouter order [GoValue.structVal c] =
      ([], some .elemOnNonPointer) ∧
    usingRouters rsNames [GoValue.structVal c] =
      ([], some .elemOnNonPointer) :=
  ⟨rfl, rfl⟩

end Bindroutes
